import Mathlib

/-!
Verification development for the gene_s repository.

The definitions below are a shallow embedding of the identity-reconciliation
and visualization-encoding pipeline of the repository:

- analysis_scripts/matrix_to_h5ad_converter.py
  (create_anndata, _smart_align_metadata, _fuzzy_match_cell_ids, _ids_similar)
- analysis_scripts/single_cell_processor.py
  (_generate_plot_data color resolution, categorical encoding and the
   positional default grouping)

Conventions of the embedding:

- Python strings are Lean String (ASCII inputs); str.strip, str.lower and
  str.replace are reimplemented below with Python semantics.
- pandas cell values are modelled by PyVal (a string, a rational number, or
  missing, the image of NaN/None).  A column is modelled with dtype object
  exactly when it contains at least one string value.
- Machine floats of the source are modelled as rationals.  The two
  thresholds 0.8 and 0.5 of _smart_align_metadata are compared through
  integer arithmetic (5*len(exact) >= 4*len(expr) and
  2*len(mapping) >= len(expr)); for integer lengths this agrees with the
  floating point comparisons of the source (0.5 is exact in binary and
  n*0.8 rounds to the rational 4n/5 whenever 4n/5 is an integer, and
  otherwise lies strictly between two integers).
- Python sets of identifiers are modelled as lists assumed duplicate free
  (the spec, section 3, makes identifier uniqueness an input invariant);
  set iteration order is unspecified in Python, and the theorems below
  never depend on the order chosen by the model.
-/

namespace GeneS

/-! ### Python string primitives -/

/-- Python whitespace characters recognised by str.strip(). -/
def isPySpace (c : Char) : Bool :=
  c == ' ' || c == '\t' || c == '\n' || c == '\r' || c == '\x0b' || c == '\x0c'

/-- Python str.strip(): drop surrounding whitespace. -/
def pyStrip (s : String) : String :=
  ⟨((s.data.dropWhile isPySpace).reverse.dropWhile isPySpace).reverse⟩

/-- Python str.lower() on ASCII strings. -/
def pyLower (s : String) : String :=
  ⟨s.data.map Char.toLower⟩

/-- Auxiliary for removeAll; the fuel argument starts at the length of the
list and is an upper bound on it throughout, so the fuel=0 case with a
nonempty list is unreachable. -/
def removeAllAux (pat : List Char) : Nat → List Char → List Char
  | _, [] => []
  | 0, l => l
  | fuel + 1, c :: t =>
    if 0 < pat.length ∧ pat.isPrefixOf (c :: t) then
      removeAllAux pat fuel (t.drop (pat.length - 1))
    else
      c :: removeAllAux pat fuel t

/-- Python s.replace(pat, ""): remove every (left to right, non
overlapping) occurrence of pat. -/
def removeAll (pat : List Char) (l : List Char) : List Char :=
  removeAllAux pat l.length l

/-- Python s[:-len(suf)] when s.endswith(suf), else s. -/
def stripSuf (s : List Char) (suf : List Char) : List Char :=
  if suf.isSuffixOf s then s.take (s.length - suf.length) else s

/-- Python substring containment needle in hay. -/
def isSubstring (needle : List Char) : List Char → Bool
  | [] => needle.isEmpty
  | c :: t => needle.isPrefixOf (c :: t) || isSubstring needle t

/-- The prefix list of _ids_similar (matrix_to_h5ad_converter.py line 264). -/
def knownPres : List (List Char) :=
  ["cell_".data, "Cell_".data, "CELL_".data, "barcode_".data, "Barcode_".data]

/-- The suffix list of _ids_similar (matrix_to_h5ad_converter.py line 265). -/
def knownSufs : List (List Char) :=
  ["_1".data, "_2".data, ".1".data, ".2".data, "-1".data, "-2".data]

/-- The prefix/suffix normalisation of _ids_similar (lines 267-278):
str.replace for each known prefix in order, then one conditional strip for
each known suffix in order. -/
def cleanId (s : String) : List Char :=
  knownSufs.foldl stripSuf (knownPres.foldl (fun acc p => removeAll p acc) s.data)

/-- MatrixToH5adConverter._ids_similar (lines 248-287): strip both, test
exact equality, case-insensitive equality, equality after prefix/suffix
cleaning, then substring containment of the cleaned forms. -/
def idsSimilar (id1 id2 : String) : Bool :=
  let s1 := pyStrip id1
  let s2 := pyStrip id2
  s1 == s2 || pyLower s1 == pyLower s2 ||
    (let c1 := cleanId s1
     let c2 := cleanId s2
     c1 == c2 || isSubstring c1 c2 || isSubstring c2 c1)

/-- MatrixToH5adConverter._fuzzy_match_cell_ids (lines 230-246): bind each
expression id to the first equivalent metadata id, skipping ids with no
match. -/
def fuzzyMatch (exprCells metaCells : List String) : List (String × String) :=
  exprCells.filterMap fun e =>
    (metaCells.find? fun m => idsSimilar e m).map fun m => (e, m)

/-! ### Data model -/

/-- A pandas cell value: a string, a (rational) number, or missing
(NaN/None). -/
inductive PyVal where
  | str : String → PyVal
  | num : ℚ → PyVal
  | missing : PyVal
deriving DecidableEq

/-- A metadata table: row identifiers, column names, and one list of values
per row (one entry per column).  Identifiers are assumed unique (spec
section 3 invariant). -/
structure MetaTable where
  ids : List String
  cols : List String
  rows : List (List PyVal)
deriving DecidableEq

/-- The row of a metadata table with the given identifier (first match). -/
def MetaTable.rowOf (t : MetaTable) (id : String) : List PyVal :=
  match (t.ids.zip t.rows).lookup id with
  | some r => r
  | none => []

/-- Index of a column name in the table. -/
def MetaTable.colIdx (t : MetaTable) (col : String) : Nat := t.cols.indexOf col

/-- meta_df.loc[id, col], with missing for absent cells. -/
def metaVal (t : MetaTable) (id col : String) : PyVal :=
  ((t.rowOf id).get? (t.colIdx col)).getD PyVal.missing

/-- Value of row number i of a metadata table in the given column
(positional access, used by the order-based strategies). -/
def metaRowVal (t : MetaTable) (i : Nat) (col : String) : PyVal :=
  ((t.rows.get? i).bind fun r => r.get? (t.colIdx col)).getD PyVal.missing

/-! ### The aligner: _smart_align_metadata -/

/-- The four strategies of _smart_align_metadata (exact intersection, fuzzy
matching, positional alignment, partial acceptance; the last one is named
fallback here because of a reserved word). -/
inductive Strategy where
  | exact | fuzzy | positional | fallback
deriving DecidableEq

/-- Outcome of the aligner: the strategy used, the expression-to-metadata
identifier mapping it produced, and the materialised metadata columns, one
value per expression cell in order. -/
structure AlignResult where
  strategy : Strategy
  mapping : List (String × String)
  obs : List (String × List PyVal)
deriving DecidableEq

/-- pd.Series.fillna("未知") on one value. -/
def fillUnknown (v : PyVal) : PyVal :=
  match v with
  | PyVal.missing => PyVal.str "未知"
  | v => v

/-- MatrixToH5adConverter._smart_align_metadata (lines 149-228).

Strategy 1 (lines 161-170): if the exact intersection is nonempty and
covers at least 80 percent of the expression cells, copy metadata columns
by index alignment (cells outside the intersection receive NaN).
Strategy 2 (lines 172-196): fuzzy matching; accepted when it covers at
least 50 percent of the expression cells.
Strategy 3 (lines 198-211): positional alignment when the two sets have the
same cardinality.
Strategy 4 (lines 213-228): only when the exact intersection is nonempty
(the guard at line 218), keep the exact matches and fill every other cell
of every column with the string "未知" (fillna applies to matched cells
whose metadata value is itself missing as well); with an empty exact
intersection no metadata column is attached at all. -/
def smartAlign (exprCells : List String) (meta : MetaTable) : AlignResult :=
  let exact := exprCells.filter fun c => decide (c ∈ meta.ids)
  if 0 < exact.length ∧ 5 * exact.length ≥ 4 * exprCells.length then
    ⟨Strategy.exact, exact.map fun c => (c, c),
      meta.cols.map fun col =>
        (col, exprCells.map fun c =>
          if c ∈ meta.ids then metaVal meta c col else PyVal.missing)⟩
  else
    let mp := fuzzyMatch exprCells meta.ids
    if 2 * mp.length ≥ exprCells.length then
      ⟨Strategy.fuzzy, mp,
        meta.cols.map fun col =>
          (col, exprCells.map fun c =>
            match mp.lookup c with
            | some m => metaVal meta m col
            | none => PyVal.missing)⟩
    else if exprCells.length = meta.ids.length then
      ⟨Strategy.positional, exprCells.zip meta.ids,
        meta.cols.map fun col =>
          (col, (List.range exprCells.length).map fun i => metaRowVal meta i col)⟩
    else
      ⟨Strategy.fallback, exact.map fun c => (c, c),
        if 0 < exact.length then
          meta.cols.map fun col =>
            (col, exprCells.map fun c =>
              if c ∈ exact then fillUnknown (metaVal meta c col)
              else PyVal.str "未知")
        else []⟩

/-! ### The assembler: create_anndata -/

/-- An expression table: gene (feature) labels, cell (sample) labels, and a
dense matrix with one row per gene. -/
structure ExprMatrix where
  genes : List String
  cells : List String
  entry : List (List ℚ)
deriving DecidableEq

/-- The assembled annotated dataset (the AnnData object): sample index,
per-sample annotation columns, feature index, per-feature annotation
columns. -/
structure AnnDataM where
  obsIndex : List String
  obsCols : List (String × List PyVal)
  varIndex : List String
  varCols : List (String × List PyVal)
deriving DecidableEq

/-- Entry of the expression matrix at a gene/cell label pair (0 outside). -/
def entryAt (m : ExprMatrix) (g c : String) : ℚ :=
  (((m.entry.get? (m.genes.indexOf g)).getD []).get? (m.cells.indexOf c)).getD 0

/-- Number of strictly positive entries in the column of cell c
(the derived n_genes column of create_anndata, line 125). -/
def nGenesOf (m : ExprMatrix) (c : String) : Nat :=
  m.entry.countP fun row => decide (0 < ((row.get? (m.cells.indexOf c)).getD 0))

/-- The cells kept by create_anndata (lines 84-111): with metadata and a
nonempty exact intersection, only the common cells survive; in every other
case all expression cells are kept. -/
def keptCellsF (m : ExprMatrix) : Option MetaTable → List String
  | none => m.cells
  | some meta =>
    if 0 < (m.cells.filter fun c => decide (c ∈ meta.ids)).length then
      m.cells.filter fun c => decide (c ∈ meta.ids)
    else m.cells

/-- The metadata columns attached by create_anndata: by identifier for the
common cells when the intersection is nonempty (lines 96-102); positionally
when the intersection is empty but the cardinalities agree (lines 104-108);
dropped entirely otherwise (lines 109-111). -/
def metaObsF (m : ExprMatrix) : Option MetaTable → List (String × List PyVal)
  | none => []
  | some meta =>
    let common := m.cells.filter fun c => decide (c ∈ meta.ids)
    if 0 < common.length then
      meta.cols.map fun col => (col, common.map fun c => metaVal meta c col)
    else if m.cells.length = meta.ids.length then
      meta.cols.map fun col =>
        (col, (List.range m.cells.length).map fun i => metaRowVal meta i col)
    else []

/-- MatrixToH5adConverter.create_anndata (lines 72-147): align or drop the
metadata, transpose the matrix, attach the metadata columns and the derived
cell_id, n_genes, gene_name and n_cells columns.  The source wraps the body
in try/except (returning None on an exception, modelled as .error); no
operation of the body can raise for table inputs and no emptiness or
degeneracy check exists anywhere in the function, so the embedding reaches
.ok on every input. -/
def createAnnData (m : ExprMatrix) (meta? : Option MetaTable) : Except String AnnDataM :=
  Except.ok
    { obsIndex := keptCellsF m meta?
      obsCols := metaObsF m meta? ++
        [("cell_id", (keptCellsF m meta?).map PyVal.str),
         ("n_genes", (keptCellsF m meta?).map fun c => PyVal.num (nGenesOf m c))]
      varIndex := m.genes
      varCols :=
        [("gene_name", m.genes.map PyVal.str),
         ("n_cells", m.genes.map fun g =>
            PyVal.num ((keptCellsF m meta?).countP fun c => decide (0 < entryAt m g c)))] }

/-! ### The colour encoder: _generate_plot_data of single_cell_processor.py -/

/-- First-encounter deduplication (pandas Series.unique); fuel variant, the
fuel starts at the length of the list and bounds it throughout. -/
def firstDedupAux : Nat → List PyVal → List PyVal
  | _, [] => []
  | 0, l => l
  | fuel + 1, x :: t => x :: firstDedupAux fuel (t.filter fun y => y != x)

/-- pandas unique: distinct values in first-encountered order. -/
def firstDedup (l : List PyVal) : List PyVal := firstDedupAux l.length l

/-- A categorical colour encoding: integer channel, ordered category list,
type tag. -/
structure CatEncoding where
  channel : List Nat
  categories : List PyVal
  colorType : String
deriving DecidableEq

/-- The categorical branch of _generate_plot_data (single_cell_processor.py
lines 344-374): enumerate the distinct non-missing values in
first-encountered order as codes 0..k-1, give missing values the reserved
code k, and append the label "未知" exactly when some sample received code
k; a column with no non-missing value instead yields an all-zero channel
with the single label "默认". -/
def encodeCategorical (vs : List PyVal) : CatEncoding :=
  let u := firstDedup (vs.filter fun v => v != PyVal.missing)
  if u.length ≠ 0 then
    let k := u.length
    let channel := vs.map fun v =>
      match v with
      | PyVal.missing => k
      | v => u.indexOf v
    ⟨channel, if k ∈ channel then u ++ [PyVal.str "未知"] else u, "categorical"⟩
  else
    ⟨vs.map fun _ => 0, [PyVal.str "默认"], "categorical"⟩

/-- Group count of the positional fallback (line 386):
min(8, max(2, n_cells // 500)). -/
def nGroups (n : Nat) : Nat := min 8 (max 2 (n / 500))

/-- np.min of a list (the empty case is unreachable in the source: np.min
raises on an empty array, and the fallback runs on the coordinate list of
the plotted samples). -/
def qMin : List ℚ → ℚ
  | [] => 0
  | x :: t => t.foldl min x

/-- np.max of a list (same remark as qMin). -/
def qMax : List ℚ → ℚ
  | [] => 0
  | x :: t => t.foldl max x

/-- np.linspace lo hi (n+1): the n+1 equally spaced points from lo to hi. -/
def linspace (lo hi : ℚ) (n : Nat) : List ℚ :=
  (List.range (n + 1)).map fun i => lo + (hi - lo) * i / n

/-- np.digitize for a non-decreasing bin list (side right): the number of
bin edges that are at most x. -/
def digitize (x : ℚ) (bins : List ℚ) : Nat :=
  bins.countP fun b => decide (b ≤ x)

/-- Result of the positional fallback grouping. -/
structure GroupResult where
  codes : List Nat
  categories : List String
  colorType : String
  usedColumn : String
deriving DecidableEq

/-- The default-grouping branch of _generate_plot_data (lines 383-396):
bin the first reduced coordinate into nGroups equal-width bins over its
observed range, labels "组1".."组N", colour type categorical, column
sentinel "位置分组".  The subtraction and the clip of the source
(np.clip(digitize - 1, 0, n - 1)) are the truncated Nat subtraction and
min below. -/
def defaultGrouping (xs : List ℚ) : GroupResult :=
  let n := nGroups xs.length
  let bins := linspace (qMin xs) (qMax xs) n
  ⟨xs.map fun x => min (digitize x bins - 1) (n - 1),
   (List.range n).map fun i => "组" ++ toString (i + 1),
   "categorical", "位置分组"⟩

/-- The priority list of conventional cluster column names (lines 296-306). -/
def priorityCols : List String :=
  ["cluster", "clusters", "louvain", "leiden", "cell_type", "celltype",
   "cell_types", "seurat_clusters", "RNA_snn_res"]

/-- dtype object test of the model: the column contains a string value. -/
def isObjectCol (vals : List PyVal) : Bool :=
  vals.any fun v =>
    match v with
    | PyVal.str _ => true
    | _ => false

/-- Lines 289-291: an empty string (or a quoted empty string) requested
column is treated as absent. -/
def cleanColorBy (cb : Option String) : Option String :=
  match cb with
  | some s => if s = "" ∨ s = "\"\"" then none else some s
  | none => none

/-- Python truthiness plus membership test of the resolution ladder. -/
def validCB (cols : List String) : Option String → Bool
  | some s => decide (s ∈ cols)
  | none => false

/-- Column resolution of _generate_plot_data (lines 288-328): requested
column if present, else the first present priority column, else the first
column of object dtype; the result may still be invalid (absent), in which
case the caller falls back to the positional grouping. -/
def resolveColumn (obs : List (String × List PyVal)) (cb0 : Option String) :
    Option String :=
  let cols := obs.map Prod.fst
  let cb1 := cleanColorBy cb0
  if validCB cols cb1 then cb1
  else
    let cb2 :=
      match priorityCols.find? (fun c => decide (c ∈ cols)) with
      | some c => some c
      | none => cb1
    if validCB cols cb2 then cb2
    else
      match (obs.find? fun p => isObjectCol p.2).map Prod.fst with
      | some c => some c
      | none => cb2

/-- The resolved colour data: numeric channel, type tag, optional category
list, column actually used (none means the positional sentinel was used in
the payload through usedColumn of GroupResult). -/
structure ColorRes where
  channel : List ℚ
  colorType : String
  categories : Option (List PyVal)
  usedColumn : Option String
deriving DecidableEq

/-- fillna(0) of the continuous branch on one value. -/
def pyValToQ (v : PyVal) : ℚ :=
  match v with
  | PyVal.num q => q
  | _ => 0

/-- Colour resolution of _generate_plot_data (lines 283-396): chosen column
if valid (categorical when of object dtype, continuous otherwise), else the
positional default grouping on the first coordinate. -/
def resolveColor (obs : List (String × List PyVal)) (xs : List ℚ)
    (cb0 : Option String) : ColorRes :=
  let useDefault : Unit → ColorRes := fun _ =>
    let g := defaultGrouping xs
    ⟨g.codes.map fun n => (n : ℚ), g.colorType,
     some (g.categories.map PyVal.str), some g.usedColumn⟩
  match resolveColumn obs cb0 with
  | some c =>
    match obs.lookup c with
    | some vals =>
      if isObjectCol vals then
        let e := encodeCategorical vals
        ⟨e.channel.map fun n => (n : ℚ), e.colorType, some e.categories, some c⟩
      else
        ⟨vals.map pyValToQ, "continuous", none, some c⟩
    | none => useDefault ()
  | none => useDefault ()

/-- The final plot payload (lines 398-423). -/
structure PlotPayload where
  x : List ℚ
  y : List ℚ
  color : List ℚ
  colorValues : List ℚ
  colorType : String
  methodName : String
  nCells : Nat
  availableColumns : List String
  usedColorColumn : Option String
  categories : Option (List PyVal)
  success : Bool
deriving DecidableEq

/-- _generate_plot_data (lines 263-438) on an already reduced dataset:
coordinates, colour resolution, and payload assembly.  The source stores
the same color_data object under both the color and the color_values key
and sets success to True. -/
def generatePlotData (obs : List (String × List PyVal)) (coords : List (ℚ × ℚ))
    (cb0 : Option String) (method : String) : PlotPayload :=
  let xs := coords.map Prod.fst
  let r := resolveColor obs xs cb0
  { x := xs
    y := coords.map Prod.snd
    color := r.channel
    colorValues := r.channel
    colorType := r.colorType
    methodName := method.toUpper
    nCells := xs.length
    availableColumns := obs.map Prod.fst
    usedColorColumn := r.usedColumn
    categories := if r.colorType = "categorical" then r.categories else none
    success := true }

/-! ### Helper lemmas -/

theorem mem_firstDedupAux (a : PyVal) :
    ∀ (fuel : Nat) (l : List PyVal), l.length ≤ fuel →
      (a ∈ firstDedupAux fuel l ↔ a ∈ l) := by
  intro fuel
  induction fuel with
  | zero =>
    intro l h
    have : l = [] := List.length_eq_zero.mp (Nat.le_zero.mp h)
    subst this
    simp [firstDedupAux]
  | succ n ih =>
    intro l h
    cases l with
    | nil => simp [firstDedupAux]
    | cons x t =>
      have ht : (t.filter fun y => y != x).length ≤ n :=
        le_trans (List.length_filter_le _ t) (by simpa using h)
      simp only [firstDedupAux, List.mem_cons, ih _ ht, List.mem_filter]
      constructor
      · rintro (rfl | ⟨hm, _⟩)
        · exact Or.inl rfl
        · exact Or.inr hm
      · rintro (rfl | hm)
        · exact Or.inl rfl
        · by_cases hax : a = x
          · exact Or.inl hax
          · exact Or.inr ⟨hm, by simp [hax]⟩

theorem mem_firstDedup (a : PyVal) (l : List PyVal) :
    a ∈ firstDedup l ↔ a ∈ l :=
  mem_firstDedupAux a l.length l le_rfl

theorem firstDedup_ne_nil {l : List PyVal} (h : l ≠ []) : firstDedup l ≠ [] := by
  cases l with
  | nil => exact absurd rfl h
  | cons x t => simp [firstDedup, firstDedupAux]

/-! ### Claim theorems -/

/-- Claim C7: the identifier matcher is reflexive: for every identifier a,
_ids_similar(a, a) returns true (the exact-equality test after stripping
succeeds).  Totality for non-null strings holds by construction of the
embedding: idsSimilar is a total Lean function into Bool. -/
theorem c7_matcher_reflexive (a : String) : idsSimilar a a = true := by
  simp [idsSimilar]

/-- Claim C8, counterexample: _ids_similar("Cell_AAACCTGAG-1", "aaacctgag")
returns false, refuting the claimed example.  The case-insensitive test
(line 260) runs before prefix/suffix cleaning, and the equality and
containment tests on the cleaned forms (lines 280-284) are case sensitive,
so "AAACCTGAG" versus "aaacctgag" does not match. -/
theorem c8_counterexample :
    idsSimilar "Cell_AAACCTGAG-1" "aaacctgag" = false := by decide

/-- Claim C8, amended: identifiers differing only by letter case (equal
after stripping and lowering) always match, and an identifier differing
from another only by a known prefix/suffix with the letter case of the
residue preserved matches, as in ("Cell_AAACCTGAG-1", "AAACCTGAG"); the
combination of a case difference with a prefix/suffix difference, as in
the claimed example ("Cell_AAACCTGAG-1", "aaacctgag"), need not match. -/
theorem c8_amended :
    (∀ a b : String, pyLower (pyStrip a) = pyLower (pyStrip b) →
      idsSimilar a b = true) ∧
    idsSimilar "Cell_AAACCTGAG-1" "AAACCTGAG" = true := by
  constructor
  · intro a b h
    simp [idsSimilar, h]
  · decide

/-- Witness for c8_amended at the concrete pair ("ABC", "abc"). -/
theorem c8_witness : idsSimilar "ABC" "abc" = true :=
  c8_amended.1 "ABC" "abc" (by decide)

/-- Claim C10: every successful plot payload carries both a color and a
color_values field and they are element-wise equal: _generate_plot_data
stores the same channel list under both keys and sets success to True. -/
theorem c10_color_duplicates_color_values
    (obs : List (String × List PyVal)) (coords : List (ℚ × ℚ))
    (cb0 : Option String) (method : String) :
    (generatePlotData obs coords cb0 method).color
      = (generatePlotData obs coords cb0 method).colorValues ∧
    (generatePlotData obs coords cb0 method).success = true :=
  ⟨rfl, rfl⟩

/-- Claim C6, counterexample: with an empty expression set and a nonempty
metadata set the aligner returns strategy fuzzy, not partial: the fuzzy
acceptance test len(mapping) >= 0.5 * len(expression_cells) is 0 >= 0 and
succeeds vacuously, so strategy 4 (fallback) is never reached. -/
theorem c6_counterexample :
    (smartAlign [] ⟨["m1"], ["c"], [[PyVal.str "v"]]⟩).strategy = Strategy.fuzzy ∧
    Strategy.fuzzy ≠ Strategy.fallback := by decide

/-- Claim C6, amended: an empty expression set yields an empty mapping with
strategy fuzzy (the 50 percent threshold is met vacuously); an empty
metadata set with a nonempty expression set yields an empty mapping with
strategy partial (fallback).  The aligner never raises: smartAlign is a
total function of its two inputs. -/
theorem c6_amended :
    (∀ meta : MetaTable,
      (smartAlign [] meta).strategy = Strategy.fuzzy ∧
      (smartAlign [] meta).mapping = []) ∧
    (∀ (cells : List String) (meta : MetaTable), cells ≠ [] → meta.ids = [] →
      (smartAlign cells meta).strategy = Strategy.fallback ∧
      (smartAlign cells meta).mapping = []) := by
  constructor
  · intro meta
    simp [smartAlign, fuzzyMatch]
  · intro cells meta hc hids
    have h1 : (cells.filter fun c => decide (c ∈ meta.ids)) = [] := by
      simp [hids]
    have h2 : fuzzyMatch cells meta.ids = [] := by
      simp [hids, fuzzyMatch]
    have h4 : ¬ (cells.length = meta.ids.length) := by
      rw [hids]
      simpa using hc
    refine ⟨?_, ?_⟩ <;>
      simp [smartAlign, h1, h2, h4, hc]

/-- Witness for c6_amended at concrete inputs. -/
theorem c6_witness :
    ((smartAlign [] ⟨["m2"], [], []⟩).strategy = Strategy.fuzzy ∧
      (smartAlign [] ⟨["m2"], [], []⟩).mapping = []) ∧
    ((smartAlign ["e1"] ⟨[], [], []⟩).strategy = Strategy.fallback ∧
      (smartAlign ["e1"] ⟨[], [], []⟩).mapping = []) :=
  ⟨c6_amended.1 ⟨["m2"], [], []⟩, c6_amended.2 ["e1"] ⟨[], [], []⟩ (by decide) rfl⟩

/-- Claim C5: on two identical nonempty identifier sets the aligner uses
the exact-intersection strategy and the mapping is the identity on every
element; more generally, whenever the exact intersection of a nonempty
expression set covers at least 80 percent of it, the aligner accepts the
identity mapping restricted to the intersection and tries no further
strategy. -/
theorem c5_exact_intersection :
    (∀ (cells : List String) (meta : MetaTable), cells ≠ [] →
      (∀ c, c ∈ cells ↔ c ∈ meta.ids) →
      (smartAlign cells meta).strategy = Strategy.exact ∧
      (smartAlign cells meta).mapping = cells.map fun c => (c, c)) ∧
    (∀ (cells : List String) (meta : MetaTable), cells ≠ [] →
      5 * (cells.filter fun c => decide (c ∈ meta.ids)).length ≥ 4 * cells.length →
      (smartAlign cells meta).strategy = Strategy.exact ∧
      (smartAlign cells meta).mapping =
        (cells.filter fun c => decide (c ∈ meta.ids)).map fun c => (c, c)) := by
  have main : ∀ (cells : List String) (meta : MetaTable), cells ≠ [] →
      5 * (cells.filter fun c => decide (c ∈ meta.ids)).length ≥ 4 * cells.length →
      (smartAlign cells meta).strategy = Strategy.exact ∧
      (smartAlign cells meta).mapping =
        (cells.filter fun c => decide (c ∈ meta.ids)).map fun c => (c, c) := by
    intro cells meta hne hcov
    have hlen : 0 < cells.length := List.length_pos.mpr hne
    have hpos : 0 < (cells.filter fun c => decide (c ∈ meta.ids)).length := by omega
    refine ⟨?_, ?_⟩ <;>
      · simp only [smartAlign]
        rw [if_pos ⟨hpos, hcov⟩]
  constructor
  · intro cells meta hne hset
    have hfeq : (cells.filter fun c => decide (c ∈ meta.ids)) = cells :=
      List.filter_eq_self.mpr fun a ha => by simpa using (hset a).mp ha
    have := main cells meta hne (by rw [hfeq]; omega)
    rwa [hfeq] at this
  · exact main

/-- Witness for c5_exact_intersection at concrete inputs. -/
theorem c5_witness :
    ((smartAlign ["a"] ⟨["a"], [], []⟩).strategy = Strategy.exact ∧
      (smartAlign ["a"] ⟨["a"], [], []⟩).mapping = [("a", "a")]) ∧
    ((smartAlign ["p", "q"] ⟨["q", "p"], [], []⟩).strategy = Strategy.exact ∧
      (smartAlign ["p", "q"] ⟨["q", "p"], [], []⟩).mapping =
        ((["p", "q"] : List String).filter fun c =>
          decide (c ∈ (["q", "p"] : List String))).map fun c => (c, c)) :=
  ⟨by
    have h := c5_exact_intersection.1 ["a"] ⟨["a"], [], []⟩ (by decide) (fun c => by simp)
    simpa using h,
   c5_exact_intersection.2 ["p", "q"] ⟨["q", "p"], [], []⟩ (by decide) (by decide)⟩

/-- Claim C1, counterexample: expression cells [s1, s2] and metadata ids
[s2, zz] overlap partially; assembly (create_anndata) keeps only the common
cell s2, so the assembled sample count is 1, not the expression sample
count 2, and s1 is dropped instead of receiving the unknown sentinel. -/
theorem c1_counterexample :
    (createAnnData ⟨["g1"], ["s1", "s2"], [[1, 2]]⟩
        (some ⟨["s2", "zz"], ["anno"], [[PyVal.str "p"], [PyVal.str "q"]]⟩)).toOption.map
      AnnDataM.obsIndex = some ["s2"] ∧
    (["s1", "s2"] : List String).length = 2 ∧
    (["s2"] : List String).length ≠ 2 := by decide

/-- Claim C1, amended: assembly does not keep unmapped expression samples.
When the identifier sets have a nonempty intersection, create_anndata keeps
exactly the common samples (the assembled sample index is the expression
cell list filtered to the metadata ids).  The unknown-sentinel filling of
the claim exists only in the partial (fallback) strategy of the separate
_smart_align_metadata function, which no code path invokes, and there it
runs only when at least one exact match exists: in that case every
unmatched sample receives the string sentinel "未知" in every metadata
column, numeric columns included (there is no neutral numeric 0 default);
with no exact match the partial strategy attaches no metadata columns at
all. -/
theorem c1_amended :
    (∀ (m : ExprMatrix) (meta : MetaTable),
      0 < (m.cells.filter fun c => decide (c ∈ meta.ids)).length →
      ∀ d, createAnnData m (some meta) = Except.ok d →
        d.obsIndex = m.cells.filter fun c => decide (c ∈ meta.ids)) ∧
    (∀ (cells : List String) (meta : MetaTable) (p : String × List PyVal),
      (smartAlign cells meta).strategy = Strategy.fallback →
      0 < (cells.filter fun c => decide (c ∈ meta.ids)).length →
      p ∈ (smartAlign cells meta).obs →
      ∀ (i : Nat) (hi : i < cells.length),
        cells.get ⟨i, hi⟩ ∉ meta.ids →
        p.2.get? i = some (PyVal.str "未知")) ∧
    (∀ (cells : List String) (meta : MetaTable),
      (smartAlign cells meta).strategy = Strategy.fallback →
      (cells.filter fun c => decide (c ∈ meta.ids)).length = 0 →
      (smartAlign cells meta).obs = []) := by
  refine ⟨?_, ?_, ?_⟩
  · intro m meta h d hd
    simp only [createAnnData, Except.ok.injEq] at hd
    subst hd
    simp only [keptCellsF]
    rw [if_pos h]
  · intro cells meta p hstrat hpos hmem i hi hni
    simp only [smartAlign] at hstrat hmem
    by_cases h1 : 0 < (cells.filter fun c => decide (c ∈ meta.ids)).length ∧
        5 * (cells.filter fun c => decide (c ∈ meta.ids)).length ≥ 4 * cells.length
    · rw [if_pos h1] at hstrat
      simp at hstrat
    · rw [if_neg h1] at hstrat hmem
      by_cases h2 : 2 * (fuzzyMatch cells meta.ids).length ≥ cells.length
      · rw [if_pos h2] at hstrat
        simp at hstrat
      · rw [if_neg h2] at hstrat hmem
        by_cases h3 : cells.length = meta.ids.length
        · rw [if_pos h3] at hstrat
          simp at hstrat
        · rw [if_neg h3] at hmem
          rw [if_pos hpos] at hmem
          obtain ⟨col, hcol, hp⟩ := List.mem_map.mp hmem
          have hp2 : p.2 = cells.map fun c =>
              if c ∈ cells.filter (fun c => decide (c ∈ meta.ids)) then
                fillUnknown (metaVal meta c col)
              else PyVal.str "未知" := by
            rw [← hp]
          rw [hp2, List.get?_map, List.get?_eq_get hi]
          have hnf : cells.get ⟨i, hi⟩ ∉ cells.filter fun c => decide (c ∈ meta.ids) := by
            intro hmem2
            exact hni (by simpa using (List.mem_filter.mp hmem2).2)
          simp only [Option.map_some']
          rw [if_neg hnf]
  · intro cells meta hstrat hzero
    simp only [smartAlign] at hstrat ⊢
    by_cases h1 : 0 < (cells.filter fun c => decide (c ∈ meta.ids)).length ∧
        5 * (cells.filter fun c => decide (c ∈ meta.ids)).length ≥ 4 * cells.length
    · rw [if_pos h1] at hstrat
      simp at hstrat
    · rw [if_neg h1] at hstrat ⊢
      by_cases h2 : 2 * (fuzzyMatch cells meta.ids).length ≥ cells.length
      · rw [if_pos h2] at hstrat
        simp at hstrat
      · rw [if_neg h2] at hstrat ⊢
        by_cases h3 : cells.length = meta.ids.length
        · rw [if_pos h3] at hstrat
          simp at hstrat
        · rw [if_neg h3]
          show (if 0 < (cells.filter fun c => decide (c ∈ meta.ids)).length then _ else _) = _
          rw [if_neg (by omega)]

/-- Witness for c1_amended at concrete inputs. -/
theorem c1_witness :
    (("k", [PyVal.num 7, PyVal.str "未知", PyVal.str "未知"]) :
        String × List PyVal).2.get? 1 = some (PyVal.str "未知") :=
  c1_amended.2.1 ["u1", "u2", "zz9"] ⟨["u1"], ["k"], [[PyVal.num 7]]⟩
    ("k", [PyVal.num 7, PyVal.str "未知", PyVal.str "未知"])
    (by decide) (by decide) (by decide) 1 (by decide) (by decide)

/-- Claim C2: the end-to-end scenario (expression samples [s1, s2, s3],
metadata samples [S1, s2, s3_1], cluster = [X, Y, Z]).  The pipeline calls
create_anndata, which intersects the identifier sets, finds the single
common id s2, keeps only that sample and never invokes fuzzy matching, so
the assembled dataset has one sample instead of three.  The dead
_smart_align_metadata function (which no code path calls, although its
docstring states it exists exactly to solve this mismatch) would map all
three ids by fuzzy matching and populate the cluster column fully, as the
claim describes. -/
theorem c2_pipeline_drops_samples :
    (createAnnData ⟨["g1"], ["s1", "s2", "s3"], [[1, 0, 2]]⟩
        (some ⟨["S1", "s2", "s3_1"], ["cluster"],
          [[PyVal.str "X"], [PyVal.str "Y"], [PyVal.str "Z"]]⟩)).toOption.map
      AnnDataM.obsIndex = some ["s2"] ∧
    fuzzyMatch ["s1", "s2", "s3"] ["S1", "s2", "s3_1"]
      = [("s1", "S1"), ("s2", "s2"), ("s3", "s3_1")] ∧
    (smartAlign ["s1", "s2", "s3"]
        ⟨["S1", "s2", "s3_1"], ["cluster"],
          [[PyVal.str "X"], [PyVal.str "Y"], [PyVal.str "Z"]]⟩).strategy
      = Strategy.fuzzy ∧
    (smartAlign ["s1", "s2", "s3"]
        ⟨["S1", "s2", "s3_1"], ["cluster"],
          [[PyVal.str "X"], [PyVal.str "Y"], [PyVal.str "Z"]]⟩).obs
      = [("cluster", [PyVal.str "X", PyVal.str "Y", PyVal.str "Z"])] := by decide

/-- Claim C3, counterexample: a categorical column whose values are all
missing.  The claimed rule predicts code k = 0 for the missing value and an
unknown label appended at index 0; the code instead takes the empty-unique
branch and returns an all-zero channel with the single category "默认"
(default), not the "未知" (unknown) sentinel. -/
theorem c3_counterexample :
    (encodeCategorical [PyVal.missing]).channel = [0] ∧
    (encodeCategorical [PyVal.missing]).categories = [PyVal.str "默认"] ∧
    PyVal.str "默认" ≠ PyVal.str "未知" := by decide

/-- Claim C3, amended: for every categorical column with at least one
non-missing value, the encoding enumerates the distinct non-missing values
in first-encountered order as codes 0..k-1 (each non-missing value receives
its index, which is below k), missing values receive code k, and the
sentinel label (spelled "未知" in the source) is appended at index k if and
only if at least one sample received code k (equivalently, some value is
missing); in particular the column [A, A, B, None] yields categories
[A, B, 未知] and channel [0, 0, 1, 2].  A column with no non-missing value
instead yields an all-zero channel with the single category "默认". -/
theorem c3_amended :
    (∀ vs : List PyVal, (∃ v ∈ vs, v ≠ PyVal.missing) →
      ((encodeCategorical vs).channel = vs.map fun v =>
          match v with
          | PyVal.missing => (firstDedup (vs.filter fun v => v != PyVal.missing)).length
          | v => (firstDedup (vs.filter fun v => v != PyVal.missing)).indexOf v) ∧
      (∀ v ∈ vs, v ≠ PyVal.missing →
        (firstDedup (vs.filter fun v => v != PyVal.missing)).indexOf v
          < (firstDedup (vs.filter fun v => v != PyVal.missing)).length) ∧
      (encodeCategorical vs).categories =
        (if PyVal.missing ∈ vs then
          firstDedup (vs.filter fun v => v != PyVal.missing) ++ [PyVal.str "未知"]
        else firstDedup (vs.filter fun v => v != PyVal.missing))) ∧
    encodeCategorical [PyVal.str "A", PyVal.str "A", PyVal.str "B", PyVal.missing]
      = ⟨[0, 0, 1, 2], [PyVal.str "A", PyVal.str "B", PyVal.str "未知"],
          "categorical"⟩ := by
  constructor
  · rintro vs ⟨v0, hv0, hv0ne⟩
    have hfil : v0 ∈ vs.filter fun v => v != PyVal.missing :=
      List.mem_filter.mpr ⟨hv0, by simpa using hv0ne⟩
    have hune : firstDedup (vs.filter fun v => v != PyVal.missing) ≠ [] :=
      firstDedup_ne_nil (List.ne_nil_of_mem hfil)
    have hk : (firstDedup (vs.filter fun v => v != PyVal.missing)).length ≠ 0 := by
      simpa [List.length_eq_zero] using hune
    have hmemu : ∀ v ∈ vs, v ≠ PyVal.missing →
        v ∈ firstDedup (vs.filter fun v => v != PyVal.missing) := by
      intro v hv hvne
      exact (mem_firstDedup v _).mpr (List.mem_filter.mpr ⟨hv, by simpa using hvne⟩)
    have hlt : ∀ v ∈ vs, v ≠ PyVal.missing →
        (firstDedup (vs.filter fun v => v != PyVal.missing)).indexOf v
          < (firstDedup (vs.filter fun v => v != PyVal.missing)).length := by
      intro v hv hvne
      exact List.indexOf_lt_length.mpr (hmemu v hv hvne)
    refine ⟨?_, hlt, ?_⟩
    · simp only [encodeCategorical]
      rw [if_pos hk]
    · simp only [encodeCategorical]
      rw [if_pos hk]
      have hiff : (firstDedup (vs.filter fun v => v != PyVal.missing)).length ∈
          (vs.map fun v =>
            match v with
            | PyVal.missing => (firstDedup (vs.filter fun v => v != PyVal.missing)).length
            | v => (firstDedup (vs.filter fun v => v != PyVal.missing)).indexOf v) ↔
          PyVal.missing ∈ vs := by
        constructor
        · intro hm
          obtain ⟨v, hv, hfv⟩ := List.mem_map.mp hm
          cases v with
          | missing => exact hv
          | str s => exact absurd hfv (Nat.ne_of_lt (hlt _ hv (by simp)))
          | num q => exact absurd hfv (Nat.ne_of_lt (hlt _ hv (by simp)))
        · intro hm
          exact List.mem_map.mpr ⟨PyVal.missing, hm, rfl⟩
      exact if_congr hiff rfl rfl
  · decide

/-- Witness for c3_amended at the concrete column [A, None]. -/
theorem c3_witness :
    ((encodeCategorical [PyVal.str "A", PyVal.missing]).channel
        = [PyVal.str "A", PyVal.missing].map (fun v =>
            match v with
            | PyVal.missing =>
              (firstDedup ([PyVal.str "A", PyVal.missing].filter fun v =>
                v != PyVal.missing)).length
            | v =>
              (firstDedup ([PyVal.str "A", PyVal.missing].filter fun v =>
                v != PyVal.missing)).indexOf v) ∧
      (∀ v ∈ [PyVal.str "A", PyVal.missing], v ≠ PyVal.missing →
        (firstDedup ([PyVal.str "A", PyVal.missing].filter fun v =>
          v != PyVal.missing)).indexOf v
          < (firstDedup ([PyVal.str "A", PyVal.missing].filter fun v =>
              v != PyVal.missing)).length) ∧
      (encodeCategorical [PyVal.str "A", PyVal.missing]).categories =
        (if PyVal.missing ∈ [PyVal.str "A", PyVal.missing] then
          firstDedup ([PyVal.str "A", PyVal.missing].filter fun v =>
            v != PyVal.missing) ++ [PyVal.str "未知"]
        else firstDedup ([PyVal.str "A", PyVal.missing].filter fun v =>
          v != PyVal.missing))) :=
  c3_amended.1 [PyVal.str "A", PyVal.missing] ⟨PyVal.str "A", by decide, by decide⟩

/-- Claim C4, counterexample: on the empty expression table (zero samples
and zero features) assembly succeeds and returns an empty dataset with the
derived columns; there is no ConstructionError and no degeneracy check
anywhere in create_anndata. -/
theorem c4_counterexample :
    (⟨[], [], []⟩ : ExprMatrix).cells.length = 0 ∧
    (⟨[], [], []⟩ : ExprMatrix).genes.length = 0 ∧
    createAnnData ⟨[], [], []⟩ none
      = Except.ok ⟨[], [("cell_id", []), ("n_genes", [])], [],
          [("gene_name", []), ("n_cells", [])]⟩ := ⟨rfl, rfl, rfl⟩

/-- Claim C4, amended: assembly performs no degeneracy validation:
create_anndata succeeds on every expression table with zero samples or zero
features (given no metadata), returning the dataset with the corresponding
empty axis and only the derived columns; no ConstructionError exists in the
code, and pipeline failures surface only as caught-exception error results
elsewhere. -/
theorem c4_amended (m : ExprMatrix)
    (h : m.cells.length = 0 ∨ m.genes.length = 0) :
    createAnnData m none =
      Except.ok
        { obsIndex := m.cells
          obsCols := [("cell_id", m.cells.map PyVal.str),
            ("n_genes", m.cells.map fun c => PyVal.num (nGenesOf m c))]
          varIndex := m.genes
          varCols := [("gene_name", m.genes.map PyVal.str),
            ("n_cells", m.genes.map fun g =>
              PyVal.num (m.cells.countP fun c => decide (0 < entryAt m g c)))] } :=
  rfl

/-- Witness for c4_amended at a zero-sample table with one feature. -/
theorem c4_witness :
    createAnnData ⟨["gX"], [], [[]]⟩ none =
      Except.ok
        { obsIndex := []
          obsCols := [("cell_id", []), ("n_genes", [])]
          varIndex := ["gX"]
          varCols := [("gene_name", [PyVal.str "gX"]),
            ("n_cells", [PyVal.num ((0 : ℕ) : ℚ)])] } :=
  c4_amended ⟨["gX"], [], [[]]⟩ (Or.inl rfl)

/-- Claim C9, counterexample: a dataset of two samples whose first
coordinate is constant.  The default grouping returns color_type
"categorical" (the claim says "default"), and its category list has length
2 while only one distinct code is observed in the channel, so the category
count does not equal the number of distinct observed codes. -/
theorem c9_counterexample :
    (defaultGrouping [5, 5]).colorType = "categorical" ∧
    ("categorical" : String) ≠ "default" ∧
    (defaultGrouping [5, 5]).categories.length = 2 ∧
    (defaultGrouping [5, 5]).codes.dedup.length = 1 := by
  have hbins : linspace (qMin [5, 5]) (qMax [5, 5]) (nGroups 2) = [5, 5, 5] := by
    norm_num [linspace, qMin, qMax, nGroups, List.range_succ]
  have hcodes : (defaultGrouping [5, 5]).codes = [1, 1] := by
    have h0 : (defaultGrouping [5, 5]).codes
        = [5, 5].map fun x =>
            min (digitize x (linspace (qMin [5, 5]) (qMax [5, 5]) (nGroups 2)) - 1)
              (nGroups 2 - 1) := rfl
    rw [h0, hbins]
    norm_num [digitize, nGroups]
  refine ⟨rfl, by decide, by decide, ?_⟩
  rw [hcodes]
  decide

/-- Claim C9, amended: on a nonempty coordinate list the positional
fallback produces color_type "categorical" (not "default") with the column
sentinel "位置分组", partitions the samples into
min(8, max(2, sample_count // 500)) groups by equal-width binning of the
first reduced coordinate (so the category count is between 2 and 8
inclusive), every channel code is below the category count, and the number
of distinct observed codes is at most the category count (equality need not
hold). -/
theorem c9_amended (xs : List ℚ) (h : xs ≠ []) :
    (defaultGrouping xs).colorType = "categorical" ∧
    (defaultGrouping xs).usedColumn = "位置分组" ∧
    (defaultGrouping xs).categories.length = nGroups xs.length ∧
    2 ≤ (defaultGrouping xs).categories.length ∧
    (defaultGrouping xs).categories.length ≤ 8 ∧
    (∀ c ∈ (defaultGrouping xs).codes, c < (defaultGrouping xs).categories.length) ∧
    (defaultGrouping xs).codes.dedup.length ≤ (defaultGrouping xs).categories.length := by
  have hlen : (defaultGrouping xs).categories.length = nGroups xs.length := by
    simp [defaultGrouping]
  have hcode : ∀ c ∈ (defaultGrouping xs).codes, c < nGroups xs.length := by
    intro c hc
    simp only [defaultGrouping, List.mem_map] at hc
    obtain ⟨x, hx, rfl⟩ := hc
    have h2 : 2 ≤ nGroups xs.length := by unfold nGroups; omega
    have := Nat.min_le_right (digitize x (linspace (qMin xs) (qMax xs) (nGroups xs.length)) - 1)
      (nGroups xs.length - 1)
    omega
  refine ⟨rfl, rfl, hlen, ?_, ?_, ?_, ?_⟩
  · rw [hlen]; unfold nGroups; omega
  · rw [hlen]; unfold nGroups; omega
  · intro c hc
    rw [hlen]
    exact hcode c hc
  · rw [hlen]
    calc (defaultGrouping xs).codes.dedup.length
        = (defaultGrouping xs).codes.toFinset.card := (List.card_toFinset _).symm
      _ ≤ (Finset.range (nGroups xs.length)).card := by
          apply Finset.card_le_card
          intro c hc
          rw [Finset.mem_range]
          exact hcode c (List.mem_toFinset.mp hc)
      _ = nGroups xs.length := Finset.card_range _

/-- Witness for c9_amended at the singleton coordinate list. -/
theorem c9_witness :
    (defaultGrouping [(1 : ℚ)]).colorType = "categorical" ∧
    (defaultGrouping [(1 : ℚ)]).usedColumn = "位置分组" ∧
    (defaultGrouping [(1 : ℚ)]).categories.length = nGroups ([(1 : ℚ)]).length ∧
    2 ≤ (defaultGrouping [(1 : ℚ)]).categories.length ∧
    (defaultGrouping [(1 : ℚ)]).categories.length ≤ 8 ∧
    (∀ c ∈ (defaultGrouping [(1 : ℚ)]).codes,
      c < (defaultGrouping [(1 : ℚ)]).categories.length) ∧
    (defaultGrouping [(1 : ℚ)]).codes.dedup.length
      ≤ (defaultGrouping [(1 : ℚ)]).categories.length :=
  c9_amended [(1 : ℚ)] (by decide)

end GeneS
